import Mathlib

/-
Verification development for the synthea ContextManager module
(src/synthea/ContextManager.py).

The Python source is shallowly embedded: each method becomes a Lean
function over explicit data, Python exceptions become an explicit
PyExc error value threaded through Except, and the two external
collaborators that live outside the file under study (the command
parser ChatbotParser.parse and the discord fetch_message capability,
plus the SyntheaClient.SYSTEM_TAG footer constant) are supplied as
fields of a context record, since only their call sites are visible
in the file under study.  Python truthiness tests on optional strings
(`if not system_prompt`) are modelled by pyFalsyOptStr, `str.isspace`
by pyIsSpace, and `len(x) // 3` by Nat division.
-/

namespace Synthea

/-- discord.Embed as used by the source: a description string and an
optional footer text (discord footers may be absent). The absent
description case is modelled as the empty string; no claim exercises it. -/
structure Embed where
  description : String
  footer_text : Option String
deriving DecidableEq, Repr

/-- discord.Attachment as used by ContextManager.read_attachment: a
content type (None allowed), the outcome of decoding its bytes as text
(`attachment_bytes.decode()`, none models a raised decode error), and
the outcome of PDF page extraction (`pypdf.PdfReader` plus
`page.extract_text()` over all pages, none models a raised extraction
error). -/
structure Attachment where
  content_type : Option String
  decoded : Option String
  pdf_pages : Option (List String)
deriving DecidableEq, Repr

/-- discord.Message as consumed by the source: id, author id and
display name, clean_content, embeds, attachments, and the optional
reply reference (the id of the replied-to message). -/
structure Message where
  id : Nat
  author_id : Nat
  author_display_name : String
  clean_content : String
  embeds : List Embed
  attachments : List Attachment
  reference : Option Nat
deriving DecidableEq, Repr

/-- ParsedArgs produced by ChatbotParser.parse, as consumed by the
source: the prompt text and the use_as_system_prompt flag. -/
structure ParsedArgs where
  prompt : String
  use_as_system_prompt : Bool
deriving DecidableEq, Repr

/-- One entry of the compiled chat history: the dict
    \x7b"role": r, "content": c\x7d built by compile_chat_history. -/
structure CompiledMessage where
  role : String
  content : String
deriving DecidableEq, Repr

/-- Python exceptions that can escape the embedded functions. -/
inductive PyExc where
  /-- TypeError from len applied to None. -/
  | typeError
  /-- CommandError or ParserExitedException raised by ChatbotParser.parse. -/
  | commandError
  /-- discord.NotFound, Forbidden or HTTPException from fetch_message. -/
  | notFound
  /-- UnicodeDecodeError from attachment_bytes.decode(). -/
  | decodeError
  /-- an error raised by pypdf while reading pages. -/
  | pdfError
deriving DecidableEq, Repr

deriving instance DecidableEq for Except

/-- The configuration and external collaborators of ContextManager:
Config fields context_length, max_new_tokens and command_start_str;
the bot user id; the SyntheaClient.SYSTEM_TAG footer constant
(modelled from the spec: the reserved system-tag marker, its source
is outside the file under study); ChatbotParser.parse (none models a
raised CommandError or ParserExitedException); channel.fetch_message
(none models NotFound, Forbidden or HTTPException). -/
structure Ctx where
  context_length : Nat
  max_new_tokens : Nat
  command_start_str : String
  bot_user_id : Nat
  system_tag : String
  parse : String → Option ParsedArgs
  fetch : Nat → Option Message

/-- EST_CHARS_PER_TOKEN = 3, the characters-per-token heuristic. -/
def EST_CHARS_PER_TOKEN : Nat := 3

/-- Python truthiness of an optional string: None and the empty
string are falsy. -/
def pyFalsyOptStr : Option String → Bool
  | none => true
  | some s => s == ""

/-- Does the character list start with the pattern. -/
def startsL : List Char → List Char → Bool
  | [], _ => true
  | _ :: _, [] => false
  | a :: as, b :: bs => a == b && startsL as bs

/-- Does the character list contain the pattern as a contiguous run. -/
def containsL (pat : List Char) : List Char → Bool
  | [] => startsL pat []
  | b :: bs => startsL pat (b :: bs) || containsL pat bs

/-- Python `pat in s` on strings: contiguous substring test. -/
def strContainsSub (s pat : String) : Bool :=
  containsL pat.data s.data

/-- Python str.lower, character by character. -/
def pyLower (s : String) : String :=
  ⟨s.data.map Char.toLower⟩

/-- Python str.startswith. -/
def strStartsWith (s pre : String) : Bool :=
  startsL pre.data s.data

/-- Python str.strip: drop whitespace from both ends. -/
def pyStrip (s : String) : String :=
  ⟨((s.data.dropWhile Char.isWhitespace).reverse.dropWhile Char.isWhitespace).reverse⟩

/-- Python str.isspace: nonempty and all characters whitespace. -/
def pyIsSpace (s : String) : Bool :=
  !s.data.isEmpty && s.data.all Char.isWhitespace

/-- The inline note appended for an unreadable or empty attachment. -/
def noteUnreadable : String :=
  "\n\nA file was attached to this message, but it is either empty or is not a file type you can read."

/-- The inline note appended for an attachment too large for the
remaining token budget. -/
def noteTooLarge : String :=
  "\n\nA file was attached to this message, but it was too large to be read."

/-- The labeled block appended for an attachment that fits. -/
def noteContents (content : String) : String :=
  "\n\nA file was attached to this message. Here are the contents:\n" ++ content

/-- ContextManager.read_attachment. Returns the outcome of the call
(the extracted string, or the escaped exception) paired with a flag
recording whether the temporary file saved for PDF extraction is
still on disk after the call returns. The source saves the PDF with
message.save, reads pages, then calls os.remove with no enclosing
try/finally, so an extraction error leaves the file behind. -/
def read_attachment (a : Attachment) : Except PyExc String × Bool :=
  match a.content_type with
  | none =>
    match a.decoded with
    | some s => (.ok s, false)
    | none => (.error .decodeError, false)
  | some ct =>
    if strStartsWith ct "text/" then
      match a.decoded with
      | some s => (.ok s, false)
      | none => (.error .decodeError, false)
    else if strContainsSub ct "application/pdf" then
      match a.pdf_pages with
      | some pages =>
        (.ok (pages.foldl (fun s p => s ++ "\n" ++ p) ""), false)
      | none => (.error .pdfError, true)
    else
      (.ok "", false)

/-- The augmentation ContextManager._get_text appends to the message
text for one successfully read attachment, given the decoded content
and the remaining token budget. -/
def attachAugment (content : String) (remaining : Int) : String :=
  if content == "" || pyIsSpace content then noteUnreadable
  else if ((content.length / EST_CHARS_PER_TOKEN : Nat) : Int) > remaining then noteTooLarge
  else noteContents content

/-- The attachment loop of ContextManager._get_text: read each
attachment in order, appending the chosen augmentation; a raised
read error escapes at once (carrying the leftover-file flag of the
failed read). -/
def getTextLoop (remaining : Int) : List Attachment → String → Except PyExc String × Bool
  | [], text => (.ok text, false)
  | a :: rest, text =>
    match read_attachment a with
    | (.error e, leak) => (.error e, leak)
    | (.ok content, _) =>
      getTextLoop remaining rest (text ++ attachAugment content remaining)

/-- Case-insensitive command-prefix test of the source:
message.clean_content.lower().startswith(config.command_start_str.lower()). -/
def startsWithCmd (ctx : Ctx) (m : Message) : Bool :=
  strStartsWith (pyLower m.clean_content) (pyLower ctx.command_start_str)

/-- The base-text resolution of ContextManager._get_text: embed
description for bot character messages, the parsed prompt for
commands (falling back to the raw clean_content when the parse
raises), else the raw clean_content. -/
def getTextBase (ctx : Ctx) (m : Message) : String :=
  if m.author_id == ctx.bot_user_id && !m.embeds.isEmpty then
    (m.embeds.headD ⟨"", none⟩).description
  else if startsWithCmd ctx m then
    match ctx.parse m.clean_content with
    | some args => args.prompt
    | none => m.clean_content
  else
    m.clean_content

/-- ContextManager._get_text: base text plus attachment
augmentations, with the token estimate len(text) // 3 of the final
text. The Bool records a leftover temporary file. -/
def get_text (ctx : Ctx) (m : Message) (remaining : Int) :
    Except PyExc (String × Nat) × Bool :=
  match getTextLoop remaining m.attachments (getTextBase ctx m) with
  | (.error e, leak) => (.error e, leak)
  | (.ok text, leak) => (.ok (text, text.length / EST_CHARS_PER_TOKEN), leak)

/-- The mutable locals of one compile_chat_history pass: token_count,
args, system_prompt and the accumulator list (newest at the tail,
since each accepted entry is inserted at position 0). -/
structure CompState where
  token_count : Nat
  args : Option ParsedArgs
  system_prompt : Option String
  messages : List CompiledMessage
deriving DecidableEq, Repr

/-- Outcome of one loop iteration: continue with the new state, or
break out of the whole pass (the budget-overflow break). -/
inductive StepOut where
  | cont (s : CompState)
  | brk (s : CompState)
deriving DecidableEq, Repr

/-- The state carried by a StepOut. -/
def stepState : StepOut → CompState
  | .cont s => s
  | .brk s => s

/-- The bot system-announcement filter of compile_chat_history: when
no args are recorded and the author is the bot, refetch the message
(an unguarded fetch_message call, so a fetch failure escapes) and
skip when its first embed carries the SYSTEM_TAG footer. -/
def systemTagSkip (ctx : Ctx) (m : Message) (s : CompState) : Except PyExc Bool :=
  if s.args.isNone && (m.author_id == ctx.bot_user_id) then
    match ctx.fetch m.id with
    | none => .error .notFound
    | some full =>
      match full.embeds with
      | [] => .ok false
      | e :: _ => .ok (e.footer_text == some ctx.system_tag)
  else
    .ok false

/-- The compiled entry inserted for an accepted message: role
assistant for the bot, else role user with the author display name
spliced in as in the f-string of the source (note the spaces around
the newline). -/
def mkEntry (ctx : Ctx) (m : Message) (text : String) : CompiledMessage :=
  if m.author_id == ctx.bot_user_id then
    { role := "assistant", content := text }
  else
    { role := "user",
      content := "Message from " ++ m.author_display_name ++ " \n " ++ text }

/-- The part of one compile_chat_history iteration after the command
block: text extraction, the system-announcement filter, the empty-text
filter, the budget check, and acceptance. -/
def compileStepRest (ctx : Ctx) (limit : Int) (m : Message) (s : CompState) :
    Except PyExc StepOut :=
  match get_text ctx m (limit - (s.token_count : Int)) with
  | (.error e, _) => .error e
  | (.ok (text, added_tokens), _) =>
    match systemTagSkip ctx m s with
    | .error e => .error e
    | .ok true => .ok (.cont s)
    | .ok false =>
      if text == "" then .ok (.cont s)
      else if (added_tokens : Int) + (s.token_count : Int) > limit then .ok (.brk s)
      else
        .ok (.cont { s with
          messages := mkEntry ctx m text :: s.messages,
          token_count := s.token_count + added_tokens })

/-- One full iteration of the compile_chat_history loop for one
message. The command block parses command-prefixed messages with an
unguarded parser.parse call (a parse failure escapes as
commandError), records the first parsed args, and tests
`if not system_prompt and args.use_as_system_prompt` on the recorded
args (not on the args of the current message), capturing args.prompt
and skipping the iteration when it fires. -/
def compileStep (ctx : Ctx) (limit : Int) (m : Message) (s : CompState) :
    Except PyExc StepOut :=
  if startsWithCmd ctx m then
    match ctx.parse m.clean_content with
    | none => .error .commandError
    | some message_args =>
      if pyFalsyOptStr s.system_prompt
          && (s.args.getD message_args).use_as_system_prompt then
        .ok (.cont { s with args := some (s.args.getD message_args),
                            system_prompt := some (s.args.getD message_args).prompt })
      else
        compileStepRest ctx limit m { s with args := some (s.args.getD message_args) }
  else
    compileStepRest ctx limit m s

/-- The async-for loop of compile_chat_history over the messages
yielded by the history iterator, newest first. -/
def compileLoop (ctx : Ctx) (limit : Int) : List Message → CompState → Except PyExc CompState
  | [], s => .ok s
  | m :: rest, s =>
    match compileStep ctx limit m s with
    | .error e => .error e
    | .ok (.brk s1) => .ok s1
    | .ok (.cont s1) => compileLoop ctx limit rest s1

/-- history_token_limit = config.context_length - config.max_new_tokens
(Python int subtraction, so the result may be negative). -/
def history_token_limit (ctx : Ctx) : Int :=
  (ctx.context_length : Int) - (ctx.max_new_tokens : Int)

/-- The system entry prepended after the pass:
`system_prompt if system_prompt else default_system_prompt`, so an
empty captured prompt falls back to the default by Python truthiness. -/
def systemEntry (dflt : String) (sp : Option String) : CompiledMessage :=
  { role := "system",
    content := match sp with
      | some p => if p == "" then dflt else p
      | none => dflt }

/-- ContextManager.compile_chat_history over an already materialised
reply-chain message list (newest first). `len(default_system_prompt)`
raises TypeError when the default is None; otherwise its estimated
cost seeds token_count, the loop runs, and the system entry is
prepended to the accumulated list. Returns the message list and the
recorded args. -/
def compile_chat_history (ctx : Ctx) (history : List Message)
    (default_system_prompt : Option String) :
    Except PyExc (List CompiledMessage × Option ParsedArgs) :=
  match default_system_prompt with
  | none => .error .typeError
  | some dflt =>
    match compileLoop ctx (history_token_limit ctx) history
        { token_count := dflt.length / EST_CHARS_PER_TOKEN,
          args := none, system_prompt := none, messages := [] } with
    | .error e => .error e
    | .ok s => .ok (systemEntry dflt s.system_prompt :: s.messages, s.args)

/-- The jinja template hard-coded inside
convert_chat_history_to_prompt, evaluated on a message list: user
entries get an instruction marker and stripped content, system
entries pass stripped content through, assistant entries get a
response marker and unstripped content, every entry is followed by a
blank line, and a trailing response cue is appended. -/
def hardcodedRender (messages : List CompiledMessage) : String :=
  (messages.foldl (fun acc msg =>
    acc ++
      (if msg.role == "user" then "### Instruction:\n" ++ pyStrip msg.content
       else if msg.role == "system" then pyStrip msg.content
       else if msg.role == "assistant" then "### Response\n" ++ msg.content
       else "") ++ "\n\n") "") ++ "### Response:\n"

/-- ContextManager.convert_chat_history_to_prompt. The chat_template
parameter is reassigned to the hard-coded template on the first line
of the body, so the supplied template is never consulted. -/
def convert_chat_history_to_prompt (chat_history : List CompiledMessage)
    (chat_template : String) : String :=
  hardcodedRender chat_history

/-- The state of a ReplyChainIterator: the current message and the
step index. -/
structure IterState where
  message : Message
  message_index : Nat
deriving DecidableEq, Repr

/-- ReplyChainIterator construction from a starting message. -/
def iterInit (start : Message) : IterState := ⟨start, 0⟩

/-- ReplyChainIterator.__anext__: at index 0 yield the starting
message; afterwards follow the reply reference through fetch_message,
ending the sequence (none) when the reference is absent or the fetch
raises NotFound, HTTPException or Forbidden. -/
def anext (fetch : Nat → Option Message) (s : IterState) :
    Option (Message × IterState) :=
  if s.message_index == 0 then
    some (s.message, { s with message_index := s.message_index + 1 })
  else
    match s.message.reference with
    | none => none
    | some rid =>
      match fetch rid with
      | none => none
      | some m => some (m, { message := m, message_index := s.message_index + 1 })

/-- Materialise the iterator into the list of yielded messages, with
fuel bounding the number of steps (reply chains are finite). -/
def iterRun (fetch : Nat → Option Message) : Nat → IterState → List Message
  | 0, _ => []
  | fuel + 1, s =>
    match anext fetch s with
    | none => []
    | some (m, s1) => m :: iterRun fetch fuel s1

/-- ContextManager.generate_chat_history_from_chat: build the reply
chain iterator from the starting message and compile. The Python
signature defaults system_prompt to None. -/
def generate_chat_history_from_chat (ctx : Ctx) (fuel : Nat) (message : Message)
    (system_prompt : Option String) :
    Except PyExc (List CompiledMessage × Option ParsedArgs) :=
  compile_chat_history ctx (iterRun ctx.fetch fuel (iterInit message)) system_prompt

/-! ### Concrete test fixtures

A small concrete context and concrete messages used by the
counterexamples and witnesses below. -/

/-- A concrete command parser for the fixtures: recognises a handful
of literal command strings, raising (none) on anything else. -/
def parseW : String → Option ParsedArgs
  | "!syn hello" => some ⟨"hello", false⟩
  | "!syn -s be terse" => some ⟨"be terse", true⟩
  | "!syn -s" => some ⟨"", true⟩
  | _ => none

/-- A concrete context: context_length 400, max_new_tokens 100,
command prefix "!syn", bot user id 99. No message can be fetched. -/
def ctxW : Ctx :=
  { context_length := 400, max_new_tokens := 100,
    command_start_str := "!syn", bot_user_id := 99,
    system_tag := "System", parse := parseW, fetch := fun _ => none }

/-- A plain user message "hi" from alice. -/
def mHi : Message :=
  { id := 1, author_id := 1, author_display_name := "alice",
    clean_content := "hi", embeds := [], attachments := [], reference := none }

/-- A whitespace-only user message from alice. -/
def mWs : Message :=
  { id := 2, author_id := 1, author_display_name := "alice",
    clean_content := "   ", embeds := [], attachments := [], reference := none }

/-- A command message from bob without the system-prompt flag. -/
def mCmdPlain : Message :=
  { id := 3, author_id := 2, author_display_name := "bob",
    clean_content := "!syn hello", embeds := [], attachments := [], reference := none }

/-- A command message from carol with the system-prompt flag. -/
def mCmdDirective : Message :=
  { id := 4, author_id := 3, author_display_name := "carol",
    clean_content := "!syn -s be terse", embeds := [], attachments := [],
    reference := none }

/-- A command message from bob with the system-prompt flag and an
empty prompt. -/
def mCmdEmptyDirective : Message :=
  { id := 5, author_id := 2, author_display_name := "bob",
    clean_content := "!syn -s", embeds := [], attachments := [], reference := none }

/-- A malformed command message from alice: the parser raises on it. -/
def mCmdBad : Message :=
  { id := 6, author_id := 1, author_display_name := "alice",
    clean_content := "!syn --oops", embeds := [], attachments := [],
    reference := none }

/-- A text attachment whose bytes do not decode. -/
def aBadText : Attachment :=
  { content_type := some "text/plain", decoded := none, pdf_pages := none }

/-- A PDF attachment whose page extraction raises. -/
def aBadPdf : Attachment :=
  { content_type := some "application/pdf", decoded := some "unused",
    pdf_pages := none }

/-- A PDF attachment whose two pages extract cleanly. -/
def aGoodPdf : Attachment :=
  { content_type := some "application/pdf", decoded := none,
    pdf_pages := some ["page one", "page two"] }

/-- A message from alice carrying the undecodable text attachment. -/
def mAttachBad : Message :=
  { id := 7, author_id := 1, author_display_name := "alice",
    clean_content := "see attached", embeds := [], attachments := [aBadText],
    reference := none }

/-- A message from alice carrying the failing PDF attachment. -/
def mAttachBadPdf : Message :=
  { id := 8, author_id := 1, author_display_name := "alice",
    clean_content := "see attached", embeds := [], attachments := [aBadPdf],
    reference := none }

/-- A user message with empty content. -/
def mEmpty : Message :=
  { id := 9, author_id := 1, author_display_name := "alice",
    clean_content := "", embeds := [], attachments := [], reference := none }

/-- An attachment with no content type whose bytes do not decode. -/
def aBadText2 : Attachment :=
  { content_type := none, decoded := none, pdf_pages := none }

/-- A message from alice carrying aBadText2. -/
def mAttachBad2 : Message :=
  { id := 10, author_id := 1, author_display_name := "alice",
    clean_content := "another attachment", embeds := [], attachments := [aBadText2],
    reference := none }

/-- A readable text attachment. -/
def aGoodText : Attachment :=
  { content_type := some "text/plain", decoded := some "hello attach",
    pdf_pages := none }

/-- A message from alice that replies to message id 1. -/
def mRef : Message :=
  { id := 11, author_id := 1, author_display_name := "alice",
    clean_content := "replying", embeds := [], attachments := [],
    reference := some 1 }

/-- A concrete fetch capability: only message id 1 (mHi) resolves. -/
def fetchW : Nat → Option Message
  | 1 => some mHi
  | _ => none

/-- A context with a tiny budget: history_token_limit is 2. -/
def ctxTiny : Ctx :=
  { context_length := 10, max_new_tokens := 8,
    command_start_str := "!syn", bot_user_id := 99,
    system_tag := "System", parse := parseW, fetch := fun _ => none }

/-- A plain user message long enough to overflow the tiny budget. -/
def mLong : Message :=
  { id := 12, author_id := 1, author_display_name := "alice",
    clean_content := "hello world out there", embeds := [], attachments := [],
    reference := none }

/-- The initial compile state for default system prompt "S". -/
def s0W : CompState :=
  { token_count := 0, args := none, system_prompt := none, messages := [] }

/-- The state after compiling mHi from s0W: the message text "hi" is
estimated at 0 tokens, its entry carries the display-name header. -/
def sHiW : CompState :=
  { token_count := 0, args := none, system_prompt := none,
    messages := [⟨"user", "Message from alice \n hi"⟩] }

/-- A message from alice carrying the readable text attachment. -/
def mAttachGood : Message :=
  { id := 13, author_id := 1, author_display_name := "alice",
    clean_content := "note", embeds := [], attachments := [aGoodText],
    reference := none }

/-! ### Helper predicates and lemmas -/

/-- The shape shared by every non-system entry the compiler inserts:
role assistant, or role user with the display-name header. -/
def entryOk (e : CompiledMessage) : Prop :=
  e.role = "assistant"
  ∨ (e.role = "user" ∧ ∃ n t, e.content = "Message from " ++ n ++ " \n " ++ t)

/-- The content of a successfully read attachment (empty string in
the error case, unused there). -/
def readContentD (a : Attachment) : String :=
  match (read_attachment a).1 with
  | .ok c => c
  | .error _ => ""

/-- Case analysis of one post-command iteration: skip, accept under
budget, or break over budget. -/
lemma compileStepRest_shape (ctx : Ctx) (limit : Int) (m : Message) (s : CompState)
    (out : StepOut) (h : compileStepRest ctx limit m s = .ok out) :
    (out = .cont s)
    ∨ (∃ text added, (get_text ctx m (limit - (s.token_count : Int))).1 = .ok (text, added)
        ∧ (text == "") = false
        ∧ out = .cont { s with messages := mkEntry ctx m text :: s.messages,
                               token_count := s.token_count + added }
        ∧ (added : Int) + (s.token_count : Int) ≤ limit)
    ∨ (out = .brk s ∧ ∃ text added,
        (get_text ctx m (limit - (s.token_count : Int))).1 = .ok (text, added)
        ∧ (text == "") = false
        ∧ (added : Int) + (s.token_count : Int) > limit) := by
  unfold compileStepRest at h
  split at h
  · exact absurd h (by simp)
  · rename_i text added leak heq
    split at h
    · exact absurd h (by simp)
    · left; cases h; rfl
    · split at h
      · left; cases h; rfl
      · rename_i hne
        split at h
        · right; right
          refine ⟨by cases h; rfl, text, added, by rw [heq], by simpa using hne, by omega⟩
        · right; left
          refine ⟨text, added, by rw [heq], by simpa using hne, by cases h; rfl, by omega⟩

/-- Case analysis of one full loop iteration: a skip keeps messages
and token count, an accept prepends one entry and charges its tokens
within the budget, a break keeps both and is caused by acceptance
exceeding the budget. -/
lemma compileStep_shape (ctx : Ctx) (limit : Int) (m : Message) (s : CompState)
    (out : StepOut) (h : compileStep ctx limit m s = .ok out) :
    (∃ s1, out = .cont s1 ∧ s1.messages = s.messages ∧ s1.token_count = s.token_count)
    ∨ (∃ s1 text added, out = .cont s1
        ∧ (get_text ctx m (limit - (s.token_count : Int))).1 = .ok (text, added)
        ∧ (text == "") = false
        ∧ s1.messages = mkEntry ctx m text :: s.messages
        ∧ s1.token_count = s.token_count + added
        ∧ (added : Int) + (s.token_count : Int) ≤ limit)
    ∨ (∃ s1, out = .brk s1 ∧ s1.messages = s.messages ∧ s1.token_count = s.token_count
        ∧ ∃ text added, (get_text ctx m (limit - (s.token_count : Int))).1 = .ok (text, added)
        ∧ (text == "") = false
        ∧ (added : Int) + (s.token_count : Int) > limit) := by
  unfold compileStep at h
  split at h
  · split at h
    · exact absurd h (by simp)
    · split at h
      · left
        cases h
        exact ⟨_, rfl, rfl, rfl⟩
      · rcases compileStepRest_shape ctx limit m _ out h with
          h1 | ⟨text, added, hg, hne, ho, hb⟩ | ⟨ho, text, added, hg, hne, hb⟩
        · left; exact ⟨_, h1, rfl, rfl⟩
        · right; left; exact ⟨_, text, added, ho, hg, hne, rfl, rfl, hb⟩
        · right; right; exact ⟨_, ho, rfl, rfl, text, added, hg, hne, hb⟩
  · rcases compileStepRest_shape ctx limit m s out h with
      h1 | ⟨text, added, hg, hne, ho, hb⟩ | ⟨ho, text, added, hg, hne, hb⟩
    · left; exact ⟨_, h1, rfl, rfl⟩
    · right; left; exact ⟨_, text, added, ho, hg, hne, rfl, rfl, hb⟩
    · right; right; exact ⟨_, ho, rfl, rfl, text, added, hg, hne, hb⟩

/-- Every entry the compiler inserts has the assistant or user shape. -/
lemma entryOk_mkEntry (ctx : Ctx) (m : Message) (text : String) :
    entryOk (mkEntry ctx m text) := by
  unfold mkEntry entryOk
  split
  · left; rfl
  · right; exact ⟨rfl, m.author_display_name, text, rfl⟩

/-- Assistant and user entries never carry the system role. -/
lemma entryOk_ne_system (e : CompiledMessage) (h : entryOk e) : e.role ≠ "system" := by
  rcases h with h | ⟨h, _⟩ <;> rw [h] <;> decide

/-- The token count never decreases over a whole pass. -/
lemma compileLoop_token_monotone (ctx : Ctx) (limit : Int) :
    ∀ (hist : List Message) (s sf : CompState),
    compileLoop ctx limit hist s = .ok sf → s.token_count ≤ sf.token_count := by
  intro hist
  induction hist with
  | nil =>
    intro s sf h
    cases h
    exact Nat.le_refl _
  | cons m rest ih =>
    intro s sf h
    unfold compileLoop at h
    split at h
    · exact absurd h (by simp)
    · rename_i s1 heq
      cases h
      rcases compileStep_shape ctx limit m s _ heq with
        ⟨s2, ho, _, ht⟩ | ⟨s2, text, added, ho, _, _, _, ht, _⟩ | ⟨s2, ho, _, ht, _⟩
      · exact absurd ho (by simp)
      · exact absurd ho (by simp)
      · injection ho with h2
        subst h2
        omega
    · rename_i s1 heq
      rcases compileStep_shape ctx limit m s _ heq with
        ⟨s2, ho, _, ht⟩ | ⟨s2, text, added, ho, _, _, _, ht, _⟩ | ⟨s2, ho, _, ht, _⟩
      · injection ho with h2
        subst h2
        exact le_of_eq_of_le ht.symm (ih s1 sf h)
      · injection ho with h2
        subst h2
        exact Nat.le_trans (by omega) (ih s1 sf h)
      · exact absurd ho (by simp)

/-- The entry-shape invariant is preserved over a whole pass. -/
lemma compileLoop_entries (ctx : Ctx) (limit : Int) :
    ∀ (hist : List Message) (s sf : CompState),
    compileLoop ctx limit hist s = .ok sf →
    (∀ e ∈ s.messages, entryOk e) → ∀ e ∈ sf.messages, entryOk e := by
  intro hist
  induction hist with
  | nil =>
    intro s sf h hs
    cases h
    exact hs
  | cons m rest ih =>
    intro s sf h hs
    unfold compileLoop at h
    split at h
    · exact absurd h (by simp)
    · rename_i s1 heq
      cases h
      rcases compileStep_shape ctx limit m s _ heq with
        ⟨s2, ho, hm, _⟩ | ⟨s2, text, added, ho, _, _, hm, _, _⟩ | ⟨s2, ho, hm, _⟩
      · exact absurd ho (by simp)
      · exact absurd ho (by simp)
      · injection ho with h2
        subst h2
        intro e he
        exact hs e (hm ▸ he)
    · rename_i s1 heq
      rcases compileStep_shape ctx limit m s _ heq with
        ⟨s2, ho, hm, _⟩ | ⟨s2, text, added, ho, _, _, hm, _, _⟩ | ⟨s2, ho, hm, _⟩
      · injection ho with h2
        subst h2
        exact ih s1 sf h (fun e he => hs e (hm ▸ he))
      · injection ho with h2
        subst h2
        refine ih s1 sf h (fun e he => ?_)
        rw [hm] at he
        rcases List.mem_cons.mp he with he1 | he2
        · rw [he1]; exact entryOk_mkEntry ctx m text
        · exact hs e he2
      · exact absurd ho (by simp)

/-- When every attachment of the list reads successfully, the
attachment loop appends exactly one augmentation per attachment, in
order, and leaves no temporary file behind. -/
lemma getTextLoop_all_ok (r : Int) :
    ∀ (atts : List Attachment) (base : String),
    (∀ a ∈ atts, ∃ c, (read_attachment a).1 = .ok c) →
    getTextLoop r atts base
      = (.ok (atts.foldl (fun t a => t ++ attachAugment (readContentD a) r) base),
         false) := by
  intro atts
  induction atts with
  | nil => intro base h; rfl
  | cons a rest ih =>
    intro base h
    obtain ⟨c, hc⟩ := h a (List.mem_cons_self a rest)
    have hcd : readContentD a = c := by
      unfold readContentD
      rw [hc]
    unfold getTextLoop
    rcases hra : read_attachment a with ⟨res, lk⟩
    rw [hra] at hc
    simp only at hc
    rw [hc]
    simp only [List.foldl_cons, hcd]
    exact ih (base ++ attachAugment c r)
      (fun a1 ha1 => h a1 (List.mem_cons_of_mem a ha1))

/-! ### Claim theorems -/

/-- C7: the reply chain iterator yields the starting message first
(index 0); each subsequent yield is exactly the message fetched via
the reply reference of the previous one, and the sequence ends,
without surfacing an error, exactly when the current message has no
reply reference or when the fetch fails. -/
theorem replyChainIterator_spec (fetch : Nat → Option Message)
    (start : Message) (s : IterState) :
    anext fetch (iterInit start) = some (start, ⟨start, 1⟩)
    ∧ (s.message_index ≠ 0 →
        anext fetch s =
          (match s.message.reference with
           | none => none
           | some rid =>
             match fetch rid with
             | none => none
             | some m => some (m, ⟨m, s.message_index + 1⟩))) := by
  constructor
  · rfl
  · intro h
    unfold anext
    rw [if_neg (by simpa using h)]

/-- Witness for replyChainIterator_spec: a two-element concrete
chain, then termination on a missing reference. -/
theorem replyChainIterator_spec_witness :
    anext fetchW (iterInit mRef) = some (mRef, ⟨mRef, 1⟩)
    ∧ anext fetchW ⟨mRef, 1⟩ = some (mHi, ⟨mHi, 2⟩)
    ∧ anext fetchW ⟨mHi, 2⟩ = none := by
  have h1 := replyChainIterator_spec fetchW mRef ⟨mRef, 1⟩
  have h2 := replyChainIterator_spec fetchW mRef ⟨mHi, 2⟩
  refine ⟨h1.1, ?_, ?_⟩
  · rw [h1.2 (by decide)]
    decide
  · rw [h2.2 (by decide)]
    decide

/-- C10: compile_chat_history applies len to the default system
prompt before consuming any message, so a None default raises
TypeError whatever the history; generate_chat_history_from_chat
(whose Python signature defaults system_prompt to None) propagates
the same error. -/
theorem compile_none_default_raises (ctx : Ctx) (fuel : Nat) (msg : Message)
    (history : List Message) :
    compile_chat_history ctx history none = .error .typeError
    ∧ generate_chat_history_from_chat ctx fuel msg none = .error .typeError :=
  ⟨rfl, rfl⟩

/-- C2: evaluation at the failing input. A command-prefixed message
the parser rejects makes compile_chat_history raise CommandError
(the unguarded parse on source line 147) even though the text
extractor, called on the same message, recovers by falling back to
the raw text. -/
theorem compile_parse_failure_escapes :
    startsWithCmd ctxW mCmdBad = true
    ∧ ctxW.parse mCmdBad.clean_content = none
    ∧ compile_chat_history ctxW [mCmdBad] (some "S") = .error .commandError
    ∧ (get_text ctxW mCmdBad 300).1 = .ok ("!syn --oops", 3) := by
  exact ⟨by decide, by decide, by decide, by decide⟩

/-- C6: evaluation at the failing input. The rendered prompt does not
depend on the supplied chat_template argument, because the body
reassigns it to a hard-coded template before rendering; two distinct
templates yield the same output, which follows the hard-coded
instruction and response markers. -/
theorem convert_ignores_template :
    (∀ (h : List CompiledMessage) (t1 t2 : String),
        convert_chat_history_to_prompt h t1 = convert_chat_history_to_prompt h t2)
    ∧ convert_chat_history_to_prompt [⟨"system", "S"⟩, ⟨"user", "hi"⟩] "TEMPLATE-A"
        = convert_chat_history_to_prompt [⟨"system", "S"⟩, ⟨"user", "hi"⟩] "TEMPLATE-B"
    ∧ convert_chat_history_to_prompt [⟨"system", "S"⟩, ⟨"user", "hi"⟩] "TEMPLATE-A"
        = "S\n\n### Instruction:\nhi\n\n### Response:\n" :=
  ⟨fun _ _ _ => rfl, by decide, by decide⟩

/-- C1 counterexample: in the chain newest-first
[mCmdPlain, mCmdDirective], the older message issues the
use-as-system-prompt directive while no system prompt is resolved,
yet its prompt is not captured (the system entry keeps the default
"S") and it does contribute a conversational entry, because the
source tests the flag of the recorded first-seen args rather than of
the current message. -/
theorem directive_on_older_command_ignored :
    ctxW.parse mCmdDirective.clean_content = some ⟨"be terse", true⟩
    ∧ compile_chat_history ctxW [mCmdPlain, mCmdDirective] (some "S")
        = .ok ([⟨"system", "S"⟩, ⟨"user", "Message from carol \n be terse"⟩,
                ⟨"user", "Message from bob \n hello"⟩], some ⟨"hello", false⟩)
    ∧ ("S" : String) ≠ "be terse" := by decide

/-- C1: amended — for a command-bearing message that parses, the
recorded (first-seen-from-newest) args govern the directive: when the
resolved system prompt is still falsy and the recorded args request
use-as-system-prompt, the prompt of the recorded args is captured as
the system prompt and the message contributes no conversational
entry; hence when the newest and an older message both issue the
directive the resolved prompt is that of the newest, never of the
older one. -/
theorem compileStep_capture (ctx : Ctx) (limit : Int) (m : Message) (s : CompState)
    (message_args : ParsedArgs)
    (hcmd : startsWithCmd ctx m = true)
    (hparse : ctx.parse m.clean_content = some message_args)
    (hcond : (pyFalsyOptStr s.system_prompt
        && (s.args.getD message_args).use_as_system_prompt) = true) :
    compileStep ctx limit m s
      = .ok (.cont { s with
          args := some (s.args.getD message_args),
          system_prompt := some (s.args.getD message_args).prompt }) := by
  unfold compileStep
  simp only [hcmd, hparse, hcond, if_true]

/-- Witness for compileStep_capture: the newest message carries the
directive and its own prompt is captured. -/
theorem compileStep_capture_witness :
    startsWithCmd ctxW mCmdDirective = true
    ∧ ctxW.parse mCmdDirective.clean_content = some ⟨"be terse", true⟩
    ∧ (pyFalsyOptStr s0W.system_prompt
        && (s0W.args.getD ⟨"be terse", true⟩).use_as_system_prompt) = true
    ∧ compileStep ctxW 300 mCmdDirective s0W
        = .ok (.cont { s0W with
            args := some (s0W.args.getD ⟨"be terse", true⟩),
            system_prompt := some (s0W.args.getD ⟨"be terse", true⟩).prompt }) := by
  refine ⟨by decide, by decide, by decide, ?_⟩
  exact compileStep_capture ctxW 300 mCmdDirective s0W ⟨"be terse", true⟩
    (by decide) (by decide) (by decide)

/-- C4 counterexample: a whitespace-only message is not skipped; it
is accepted and contributes a user entry, because the source skips
only the empty string. -/
theorem whitespace_message_contributes :
    pyIsSpace mWs.clean_content = true
    ∧ compile_chat_history ctxW [mWs] (some "S")
        = .ok ([⟨"system", "S"⟩, ⟨"user", "Message from alice \n    "⟩], none) := by
  decide

/-- C4: amended — a message whose extracted text is the empty string
contributes zero compiled entries: the loop iteration continues with
the message list unchanged. -/
theorem empty_text_contributes_nothing (ctx : Ctx) (limit : Int) (m : Message)
    (s : CompState) (out : StepOut) (n : Nat)
    (hget : (get_text ctx m (limit - (s.token_count : Int))).1 = .ok ("", n))
    (h : compileStep ctx limit m s = .ok out) :
    ∃ s1, out = .cont s1 ∧ s1.messages = s.messages := by
  rcases compileStep_shape ctx limit m s out h with
    ⟨s1, ho, hm, _⟩ | ⟨s1, text, added, ho, hg, hne, hm, _, _⟩ |
    ⟨s1, ho, _, _, text, added, hg, hne, _⟩
  · exact ⟨s1, ho, hm⟩
  · rw [hget] at hg
    injection hg with h3
    injection h3 with h4 h5
    rw [← h4] at hne
    exact absurd hne (by decide)
  · rw [hget] at hg
    injection hg with h3
    injection h3 with h4 h5
    rw [← h4] at hne
    exact absurd hne (by decide)

/-- Witness for empty_text_contributes_nothing on a concrete empty
message. -/
theorem empty_text_contributes_nothing_witness :
    (get_text ctxW mEmpty ((300 : Int) - (s0W.token_count : Int))).1 = .ok ("", 0)
    ∧ ∃ s1, StepOut.cont s0W = .cont s1 ∧ s1.messages = s0W.messages := by
  refine ⟨by decide, ?_⟩
  exact empty_text_contributes_nothing ctxW 300 mEmpty s0W (.cont s0W) 0
    (by decide) (by decide)

/-- C3: token accounting. Over one pass with
history_token_limit = context_length - max_new_tokens: every loop
iteration keeps the token count non-decreasing; an iteration that
accepts an entry leaves the count at most the limit; a break keeps
the count, halts the whole pass at once (no older message is
processed), and is caused exactly by the message whose acceptance
would exceed the limit; and the count is non-decreasing over a whole
pass. -/
theorem compile_token_accounting (ctx : Ctx) (m : Message) (s : CompState)
    (rest hist : List Message) :
    (∀ out, compileStep ctx (history_token_limit ctx) m s = .ok out →
        s.token_count ≤ (stepState out).token_count)
    ∧ (∀ s1, compileStep ctx (history_token_limit ctx) m s = .ok (.cont s1) →
        s1.messages ≠ s.messages →
        (s1.token_count : Int) ≤ history_token_limit ctx)
    ∧ (∀ s1, compileStep ctx (history_token_limit ctx) m s = .ok (.brk s1) →
        s1.token_count = s.token_count
        ∧ compileLoop ctx (history_token_limit ctx) (m :: rest) s = .ok s1
        ∧ ∃ text added,
            (get_text ctx m (history_token_limit ctx - (s.token_count : Int))).1
              = .ok (text, added)
            ∧ (added : Int) + (s.token_count : Int) > history_token_limit ctx)
    ∧ (∀ sf, compileLoop ctx (history_token_limit ctx) hist s = .ok sf →
        s.token_count ≤ sf.token_count) := by
  refine ⟨?_, ?_, ?_, ?_⟩
  · intro out h
    rcases compileStep_shape ctx _ m s out h with
      ⟨s2, ho, _, ht⟩ | ⟨s2, text, added, ho, _, _, _, ht, _⟩ | ⟨s2, ho, _, ht, _⟩
    · subst ho; simp [stepState]; omega
    · subst ho; simp [stepState]; omega
    · subst ho; simp [stepState]; omega
  · intro s1 h hne
    rcases compileStep_shape ctx _ m s _ h with
      ⟨s2, ho, hm, ht⟩ | ⟨s2, text, added, ho, _, _, hm, ht, hb⟩ | ⟨s2, ho, hm, ht, _⟩
    · injection ho with h2
      subst h2
      exact absurd hm hne
    · injection ho with h2
      subst h2
      omega
    · exact absurd ho (by simp)
  · intro s1 h
    rcases compileStep_shape ctx _ m s _ h with
      ⟨s2, ho, hm, ht⟩ |
      ⟨s2, text, added, ho, _, _, hm, ht, hb⟩ |
      ⟨s2, ho, hm, ht, text, added, hg, hne, hb⟩
    · exact absurd ho (by simp)
    · exact absurd ho (by simp)
    · injection ho with h2
      subst h2
      refine ⟨ht, ?_, text, added, hg, hb⟩
      simp [compileLoop, h]
  · intro sf h
    exact compileLoop_token_monotone ctx _ hist s sf h

/-- Witness for compile_token_accounting: an accepting step within
budget and a breaking step over the tiny budget. -/
theorem compile_token_accounting_witness :
    s0W.token_count ≤ (stepState (.cont sHiW)).token_count
    ∧ (sHiW.token_count : Int) ≤ history_token_limit ctxW
    ∧ (s0W.token_count = s0W.token_count
        ∧ compileLoop ctxTiny (history_token_limit ctxTiny) [mLong] s0W = .ok s0W
        ∧ ∃ text added,
            (get_text ctxTiny mLong
                (history_token_limit ctxTiny - (s0W.token_count : Int))).1
              = .ok (text, added)
            ∧ (added : Int) + (s0W.token_count : Int) > history_token_limit ctxTiny)
    ∧ s0W.token_count ≤ sHiW.token_count := by
  have h1 := compile_token_accounting ctxW mHi s0W [] [mHi]
  have h2 := compile_token_accounting ctxTiny mLong s0W [] []
  exact ⟨h1.1 (.cont sHiW) (by decide), h1.2.1 sHiW (by decide) (by decide),
    h2.2.2.1 s0W (by decide), h1.2.2.2 sHiW (by decide)⟩

/-- C9 counterexample: the user entry content is
"Message from alice \n hi" with spaces around the newline, not
"Message from alice\nhi"; and a captured override system prompt that
is empty is discarded in favour of the default by the truthiness
fallback, so the system entry is not the captured override. -/
theorem system_entry_counterexample :
    compile_chat_history ctxW [mHi] (some "S")
      = .ok ([⟨"system", "S"⟩, ⟨"user", "Message from alice \n hi"⟩], none)
    ∧ ("Message from alice \n hi" : String) ≠ "Message from alice\nhi"
    ∧ compileLoop ctxW (history_token_limit ctxW) [mCmdEmptyDirective]
        ⟨0, none, none, []⟩ = .ok ⟨0, some ⟨"", true⟩, some "", []⟩
    ∧ compile_chat_history ctxW [mCmdEmptyDirective] (some "S")
        = .ok ([⟨"system", "S"⟩], some ⟨"", true⟩)
    ∧ ("S" : String) ≠ "" := by decide

/-- C9: amended — every successful compile returns the system entry
first; its content is the captured override when that override is
nonempty, and the caller-supplied default when no override was
captured or the captured one is empty; every later entry has role
assistant or role user (never system), user entries carry the
display-name header with spaces around the newline, and each accepted
entry is prepended to the accumulator, so entries appear
oldest-to-newest after the system entry. -/
theorem compile_output_invariant (ctx : Ctx) (history : List Message) (dflt : String)
    (msgs : List CompiledMessage) (args : Option ParsedArgs)
    (h : compile_chat_history ctx history (some dflt) = .ok (msgs, args)) :
    ∃ s : CompState,
      compileLoop ctx (history_token_limit ctx) history
          ⟨dflt.length / EST_CHARS_PER_TOKEN, none, none, []⟩ = .ok s
      ∧ msgs = systemEntry dflt s.system_prompt :: s.messages
      ∧ (systemEntry dflt s.system_prompt).role = "system"
      ∧ (s.system_prompt = none → (systemEntry dflt s.system_prompt).content = dflt)
      ∧ (∀ p, s.system_prompt = some p →
          (systemEntry dflt s.system_prompt).content = (if p == "" then dflt else p))
      ∧ (∀ e ∈ s.messages, entryOk e ∧ e.role ≠ "system")
      ∧ (∀ (m1 : Message) (s1 : CompState) (out : StepOut),
          compileStep ctx (history_token_limit ctx) m1 s1 = .ok out →
            (stepState out).messages = s1.messages
            ∨ ∃ text, (stepState out).messages = mkEntry ctx m1 text :: s1.messages) := by
  unfold compile_chat_history at h
  split at h
  · exact absurd h (by simp)
  · rename_i dflt2 heq
    injection heq with heq2
    subst heq2
    split at h
    · exact absurd h (by simp)
    · rename_i s hloop
      injection h with h1
      rw [Prod.mk.injEq] at h1
      obtain ⟨rfl, rfl⟩ := h1
      have hentries : ∀ e ∈ s.messages, entryOk e :=
        compileLoop_entries ctx _ history _ s hloop
          (fun e he => absurd he (List.not_mem_nil e))
      refine ⟨s, hloop, rfl, rfl, ?_, ?_, ?_, ?_⟩
      · intro hsp; rw [hsp]; rfl
      · intro p hsp; rw [hsp]; rfl
      · intro e he
        exact ⟨hentries e he, entryOk_ne_system e (hentries e he)⟩
      · intro m1 s1 out hstep
        rcases compileStep_shape ctx _ m1 s1 out hstep with
          ⟨s2, ho, hm, _⟩ | ⟨s2, text, added, ho, _, _, hm, _, _⟩ | ⟨s2, ho, hm, _⟩
        · subst ho; exact Or.inl hm
        · subst ho; exact Or.inr ⟨text, hm⟩
        · subst ho; exact Or.inl hm

/-- Witness for compile_output_invariant on a concrete one-message
compile. -/
theorem compile_output_invariant_witness :
    ∃ s : CompState,
      compileLoop ctxW (history_token_limit ctxW) [mHi]
          ⟨"S".length / EST_CHARS_PER_TOKEN, none, none, []⟩ = .ok s
      ∧ [(⟨"system", "S"⟩ : CompiledMessage), ⟨"user", "Message from alice \n hi"⟩]
          = systemEntry "S" s.system_prompt :: s.messages
      ∧ (systemEntry "S" s.system_prompt).role = "system"
      ∧ (s.system_prompt = none → (systemEntry "S" s.system_prompt).content = "S")
      ∧ (∀ p, s.system_prompt = some p →
          (systemEntry "S" s.system_prompt).content = (if p == "" then "S" else p))
      ∧ (∀ e ∈ s.messages, entryOk e ∧ e.role ≠ "system")
      ∧ (∀ (m1 : Message) (s1 : CompState) (out : StepOut),
          compileStep ctxW (history_token_limit ctxW) m1 s1 = .ok out →
            (stepState out).messages = s1.messages
            ∨ ∃ text, (stepState out).messages = mkEntry ctxW m1 text :: s1.messages) :=
  compile_output_invariant ctxW [mHi] "S"
    [⟨"system", "S"⟩, ⟨"user", "Message from alice \n hi"⟩] none (by decide)

/-- C5 counterexample: an attachment whose bytes do not decode makes
the extractor raise (no inline note); a PDF attachment whose
extraction fails raises and leaves the temporary file on disk; both
escape through get_text, the first all the way out of
compile_chat_history. -/
theorem attachment_failure_escapes :
    (get_text ctxW mAttachBad 300).1 = .error .decodeError
    ∧ read_attachment aBadPdf = (.error .pdfError, true)
    ∧ get_text ctxW mAttachBadPdf 300 = (.error .pdfError, true)
    ∧ compile_chat_history ctxW [mAttachBad] (some "S") = .error .decodeError := by
  decide

/-- C5: amended — for a paginated-document attachment the temporary
file is removed when extraction succeeds but left behind when it
fails, and a raised attachment-read failure propagates out of
get_text instead of degrading into an inline note. -/
theorem read_attachment_failure_modes (a : Attachment) (ct : String)
    (ctx : Ctx) (m : Message) (r : Int) (att : Attachment)
    (rest : List Attachment) (e : PyExc) (leak : Bool)
    (hct : a.content_type = some ct)
    (htext : strStartsWith ct "text/" = false)
    (hpdf : strContainsSub ct "application/pdf" = true) :
    (∀ pages, a.pdf_pages = some pages →
        read_attachment a
          = (.ok (pages.foldl (fun s p => s ++ "\n" ++ p) ""), false))
    ∧ (a.pdf_pages = none → read_attachment a = (.error .pdfError, true))
    ∧ (m.attachments = att :: rest → read_attachment att = (.error e, leak) →
        get_text ctx m r = (.error e, leak)) := by
  refine ⟨?_, ?_, ?_⟩
  · intro pages hp
    simp [read_attachment, hct, htext, hpdf, hp]
  · intro hp
    simp [read_attachment, hct, htext, hpdf, hp]
  · intro hm hra
    unfold get_text
    rw [hm]
    unfold getTextLoop
    rw [hra]

/-- Witness for read_attachment_failure_modes on concrete PDF
attachments, one whose pages extract and one whose extraction
raises. -/
theorem read_attachment_failure_modes_witness :
    read_attachment aGoodPdf = (.ok "\npage one\npage two", false)
    ∧ read_attachment aBadPdf = (.error .pdfError, true)
    ∧ get_text ctxW mAttachBadPdf 300 = (.error .pdfError, true) := by
  have h1 := read_attachment_failure_modes aGoodPdf "application/pdf" ctxW
    mAttachBadPdf 300 aBadPdf [] .pdfError true (by decide) (by decide) (by decide)
  have h2 := read_attachment_failure_modes aBadPdf "application/pdf" ctxW
    mAttachBadPdf 300 aBadPdf [] .pdfError true (by decide) (by decide) (by decide)
  refine ⟨?_, h2.2.1 (by decide), h2.2.2 (by decide) (by decide)⟩
  rw [h1.1 ["page one", "page two"] (by decide)]
  decide

/-- C8 counterexample: an attachment whose read raises gets no
augmentation at all; the extractor errors out instead of appending
one of the three notes. -/
theorem attachment_augment_missing_on_error :
    mAttachBad2.attachments = [aBadText2]
    ∧ (get_text ctxW mAttachBad2 300).1 = .error .decodeError := by
  decide

/-- C8: amended — for every attachment whose content is successfully
read, exactly one augmentation is appended: the unreadable note when
the content is empty or whitespace-only, the too-large note when the
estimated tokens exceed the remaining budget (the content itself is
then not included), the labeled content block otherwise; the three
guard conditions are mutually exclusive and the loop appends the
chosen augmentation once per attachment in order. -/
theorem attachment_augmentation_trichotomy (content : String) (remaining : Int)
    (ctx : Ctx) (m : Message) (r : Int) :
    ((content == "" || pyIsSpace content) = true →
        attachAugment content remaining = noteUnreadable)
    ∧ ((content == "" || pyIsSpace content) = false →
        ((content.length / EST_CHARS_PER_TOKEN : Nat) : Int) > remaining →
        attachAugment content remaining = noteTooLarge)
    ∧ ((content == "" || pyIsSpace content) = false →
        ¬(((content.length / EST_CHARS_PER_TOKEN : Nat) : Int) > remaining) →
        attachAugment content remaining = noteContents content)
    ∧ ((∀ a ∈ m.attachments, ∃ c, (read_attachment a).1 = .ok c) →
        get_text ctx m r
          = (.ok (m.attachments.foldl
                (fun t a => t ++ attachAugment (readContentD a) r) (getTextBase ctx m),
              (m.attachments.foldl
                (fun t a => t ++ attachAugment (readContentD a) r)
                (getTextBase ctx m)).length / EST_CHARS_PER_TOKEN), false)) := by
  refine ⟨?_, ?_, ?_, ?_⟩
  · intro h1
    unfold attachAugment
    rw [if_pos h1]
  · intro h1 h2
    unfold attachAugment
    rw [if_neg (by simp [h1]), if_pos h2]
  · intro h1 h2
    unfold attachAugment
    rw [if_neg (by simp [h1]), if_neg h2]
  · intro hall
    unfold get_text
    rw [getTextLoop_all_ok r m.attachments (getTextBase ctx m) hall]

/-- Witness for attachment_augmentation_trichotomy: the three
branches on concrete contents and the loop on a readable concrete
attachment. -/
theorem attachment_augmentation_trichotomy_witness :
    attachAugment " " 0 = noteUnreadable
    ∧ attachAugment "data" 0 = noteTooLarge
    ∧ attachAugment "data" 300 = noteContents "data"
    ∧ get_text ctxW mAttachGood 300
        = (.ok (mAttachGood.attachments.foldl
              (fun t a => t ++ attachAugment (readContentD a) 300)
              (getTextBase ctxW mAttachGood),
            (mAttachGood.attachments.foldl
              (fun t a => t ++ attachAugment (readContentD a) 300)
              (getTextBase ctxW mAttachGood)).length / EST_CHARS_PER_TOKEN), false) := by
  have h1 := attachment_augmentation_trichotomy " " 0 ctxW mAttachGood 300
  have h2 := attachment_augmentation_trichotomy "data" 0 ctxW mAttachGood 300
  have h3 := attachment_augmentation_trichotomy "data" 300 ctxW mAttachGood 300
  refine ⟨h1.1 (by decide), h2.2.1 (by decide) (by decide),
    h3.2.2.1 (by decide) (by decide), h3.2.2.2 ?_⟩
  intro a ha
  rw [List.eq_of_mem_singleton ha]
  exact ⟨"hello attach", by decide⟩

end Synthea
